import Mathlib

/-!
# obs-switch: the scene switch engine

A shallow embedding of `obs-switch.go` (the `version`, `scene` and `list`
commands with their helper `reverseScenes`) and theorems about it.

The remote OBS endpoint is a `World`: a record holding what each request of a
run answers.  A command maps a `World`, its flags and its positional arguments
to a `Run`: the sequence of remote operations it performed, what it printed
and how it ended (returned nil, returned an error, or crashed with a Go
run-time panic).
-/

namespace ObsSwitch

/-! ## Data model -/

/-- A scene as delivered by the service (`typedefs.Scene`). -/
structure Scene where
  SceneIndex : Int
  SceneName : String
deriving DecidableEq, Repr

/-- The answer of `General.GetVersion`. -/
structure Version where
  ObsVersion : String
  ObsWebSocketVersion : String
deriving DecidableEq, Repr

/-- Remote operations performed on the connection, in the order issued.
`connect` is the call `goobs.New`, `disconnect` the deferred `obs.Disconnect`. -/
inductive Op where
  | connect
  | getVersion
  | getSceneList
  | getCurrentProgramScene
  | setCurrentProgramScene (sceneName : String)
  | disconnect
deriving DecidableEq, Repr

/-- How a command handler ends: `ok` is a nil error, `error` a returned error
with its message, `panic` a Go run-time panic (raised by a slice index out of
range). -/
inductive Outcome where
  | ok
  | error (msg : String)
  | panic (msg : String)
deriving DecidableEq, Repr

/-- One entry of the JSON document printed by `list` (the local type `Scene`
with the fields `index` and `name`). -/
structure ListedScene where
  SceneIndex : Int
  SceneName : String
deriving DecidableEq, Repr

/-- What a command writes to standard output.  The JSON documents are kept as
the values handed to `json.Marshal` (which cannot fail on records of strings
and integers, so the error branch after it is never taken). -/
inductive Printed where
  | versionJson (obs websocket : String)
  | scenesJson (scenes : List ListedScene)
  | text (s : String)
  | help
deriving DecidableEq, Repr

/-- The result of running a command handler. -/
structure Run where
  ops : List Op
  stdout : List Printed
  result : Outcome
deriving DecidableEq, Repr

/-- The collaborators of one invocation: the global flags `server` and
`password`, and the answer of every remote request and of `cmd.Help`. -/
structure World where
  server : String
  password : String
  connect : String → List String → Except String Unit
  getVersion : Except String Version
  getSceneList : Except String (List Scene)
  getCurrentProgramScene : Except String String
  setCurrentProgramScene : String → Except String Unit
  help : Except String Unit

/-! ## `strconv.Atoi` and `%d` -/

/-- Value of a decimal digit, `none` for any other character. -/
def digitVal (c : Char) : Option Nat :=
  if 48 ≤ c.toNat ∧ c.toNat ≤ 57 then some (c.toNat - 48) else none

/-- Accumulate decimal digits left to right; `none` at the first non-digit. -/
def parseDigits : List Char → Nat → Option Nat
  | [], acc => some acc
  | c :: cs, acc =>
    match digitVal c with
    | none => none
    | some d => parseDigits cs (acc * 10 + d)

/-- Strip one leading sign: returns whether it was a minus, and the rest. -/
def splitSign : List Char → Bool × List Char
  | '-' :: t => (true, t)
  | '+' :: t => (false, t)
  | cs => (false, cs)

/-- Go's `strconv.Atoi` on a 64-bit platform: an optional sign followed by at
least one decimal digit and nothing else, the value lying in the range of
`int`; anything else is an error (syntax or range). -/
def Atoi (s : String) : Except String Int :=
  let p := splitSign s.toList
  if p.2 = [] then .error "invalid syntax"
  else
    match parseDigits p.2 0 with
    | none => .error "invalid syntax"
    | some n =>
      let v : Int := if p.1 then -(n : Int) else (n : Int)
      if v < -(2 : Int) ^ 63 ∨ (2 : Int) ^ 63 - 1 < v then .error "value out of range"
      else .ok v

/-- Go's `%d` applied to a slice length. -/
def fmtD (n : Nat) : String := toString n

/-! ## `reverseScenes` -/

/-- The assignment `s[i], s[j] = s[j], s[i]`. -/
def swapAt (s : List Scene) (i j : Nat) : List Scene :=
  match s[i]?, s[j]? with
  | some a, some b => (s.set i b).set j a
  | _, _ => s

/-- The loop of `reverseScenes` from the state `(i, j)`:
`for ; i < j; i, j = i+1, j-1 { s[i], s[j] = s[j], s[i] }`. -/
def reverseLoop (s : List Scene) (i j : Nat) : List Scene :=
  if i < j then reverseLoop (swapAt s i j) (i + 1) (j - 1) else s
termination_by j - i

/-- The function `reverseScenes`: the loop started at `i, j := 0, len(s)-1`.
(For the empty slice Go starts at `j = -1`; the truncated `0` used here fails
the test `i < j` just the same.) -/
def reverseScenes (s : List Scene) : List Scene :=
  reverseLoop s 0 (s.length - 1)

/-! ## The `scene` command -/

/-- The connection options: `WithPassword(password)` when a password is set. -/
def connectOpts (password : String) : List String :=
  if password.length > 0 then [password] else []

/-- The search loop of the toggle branch, from position `i` over the rest of
the slice; `n` is `len(sl.Scenes)`.  The result is the final value of
`nextSceneIndex`, which was initialised to `0`. -/
def nextSceneIndexFrom (cur : String) (n : Nat) : List Scene → Nat → Nat
  | [], _ => 0
  | s :: rest, i =>
    if s.SceneName = cur then (i + 1) % n else nextSceneIndexFrom cur n rest (i + 1)

/-- The value of `nextSceneIndex` after the loop over `scenes`. -/
def nextSceneIndex (scenes : List Scene) (cur : String) : Nat :=
  nextSceneIndexFrom cur scenes.length scenes 0

/-- The slice access `sl.Scenes[idx]` for a Go `int`: a run-time panic when
`idx` is negative or not below the length. -/
def sceneAt (scenes : List Scene) (idx : Int) : Except String Scene :=
  if idx < 0 then .error "index out of range"
  else
    match scenes[idx.toNat]? with
    | some s => .ok s
    | none => .error "index out of range"

/-- The call `obs.Scenes.SetCurrentProgramScene` on `sl.Scenes[idx].SceneName`
followed by the final error check; `before` are the operations already issued
in the session. -/
def switchTo (w : World) (before : List Op) (scenes : List Scene) (idx : Int) : Run :=
  match sceneAt scenes idx with
  | .error m => ⟨before, [], .panic m⟩
  | .ok s =>
    match w.setCurrentProgramScene s.SceneName with
    | .error e => ⟨before ++ [.setCurrentProgramScene s.SceneName], [], .error e⟩
    | .ok _ => ⟨before ++ [.setCurrentProgramScene s.SceneName], [], .ok⟩

/-- The body of `sceneCmd.RunE` between the `defer` and the end of the function
(everything that runs while the connection is open). -/
def sceneSession (w : World) (toggle backwards : Bool) (args : List String) : Run :=
  match w.getSceneList with
  | .error e => ⟨[.getSceneList], [], .error e⟩
  | .ok raw =>
    if raw.length = 0 then
      ⟨[.getSceneList], [], .error "no scenes to switch between"⟩
    else
      let scenes := if !toggle || (toggle && !backwards) then reverseScenes raw else raw
      if toggle then
        match w.getCurrentProgramScene with
        | .error e => ⟨[.getSceneList, .getCurrentProgramScene], [], .error e⟩
        | .ok cur =>
          switchTo w [.getSceneList, .getCurrentProgramScene] scenes
            (nextSceneIndex scenes cur : Nat)
      else
        if args.length = 0 ∨ args.length > 1 then
          match w.help with
          | .error e => ⟨[.getSceneList], [.help], .error e⟩
          | .ok _ => ⟨[.getSceneList], [.help], .ok⟩
        else
          match Atoi (args.headD "") with
          | .error _ => ⟨[.getSceneList], [], .error "argument must be an integer"⟩
          | .ok idx =>
            if idx ≥ (scenes.length : Int) then
              ⟨[.getSceneList], [],
                .error ("index out-of-bounds, there are only " ++ fmtD scenes.length ++ " scenes")⟩
            else
              switchTo w [.getSceneList] scenes idx

/-- Scoped acquisition as written in every handler: `goobs.New`, on success
`defer obs.Disconnect()` and then the rest of the function.  The deferred call
runs when the function returns and also when it panics. -/
def withConnection (w : World) (body : Run) : Run :=
  match w.connect w.server (connectOpts w.password) with
  | .error e => ⟨[.connect], [], .error e⟩
  | .ok _ => ⟨.connect :: body.ops ++ [.disconnect], body.stdout, body.result⟩

/-- The handler `sceneCmd.RunE`.  The two flag reads come first; `toggle` and
`backwards` are what `GetBool` returned. -/
def sceneCmdRunE (w : World) (toggle backwards : Except String Bool) (args : List String) : Run :=
  match toggle with
  | .error e => ⟨[], [], .error e⟩
  | .ok t =>
    match backwards with
    | .error e => ⟨[], [], .error e⟩
    | .ok b => withConnection w (sceneSession w t b args)

/-! ## The `list` and `version` commands -/

/-- The body of `listCmd.RunE` while the connection is open; `f` is the
validated format. -/
def listSession (w : World) (f : String) : Run :=
  match w.getSceneList with
  | .error e => ⟨[.getSceneList], [], .error e⟩
  | .ok raw =>
    if raw.length = 0 then
      ⟨[.getSceneList], [], .error "no scenes to list"⟩
    else
      let scenes := reverseScenes raw
      if f = "json" then
        ⟨[.getSceneList],
          [.scenesJson (scenes.map fun s => ⟨s.SceneIndex, s.SceneName⟩)], .ok⟩
      else if f = "text" then
        ⟨[.getSceneList], scenes.map (fun s => .text (s.SceneName ++ "\n")), .ok⟩
      else
        ⟨[.getSceneList], [], .ok⟩

/-- The handler `listCmd.RunE`; `format` is what `GetString("format")` returned. -/
def listCmdRunE (w : World) (format : Except String String) : Run :=
  match format with
  | .error e => ⟨[], [], .error e⟩
  | .ok f =>
    if ¬(f = "json" ∨ f = "text") then ⟨[], [], .error "format must be json or text"⟩
    else withConnection w (listSession w f)

/-- The body of `versionCmd.RunE` while the connection is open. -/
def versionSession (w : World) (f : String) : Run :=
  match w.getVersion with
  | .error e => ⟨[.getVersion], [], .error e⟩
  | .ok v =>
    if f = "json" then
      ⟨[.getVersion], [.versionJson v.ObsVersion v.ObsWebSocketVersion], .ok⟩
    else if f = "text" then
      ⟨[.getVersion],
        [.text ("OBS version: " ++ v.ObsVersion ++ "\nOBS websocket version: "
          ++ v.ObsWebSocketVersion ++ "\n")], .ok⟩
    else
      ⟨[.getVersion], [], .ok⟩

/-- The handler `versionCmd.RunE`. -/
def versionCmdRunE (w : World) (format : Except String String) : Run :=
  match format with
  | .error e => ⟨[], [], .error e⟩
  | .ok f =>
    if ¬(f = "json" ∨ f = "text") then ⟨[], [], .error "format must be json or text"⟩
    else withConnection w (versionSession w f)

/-- The scene names of the `setCurrentProgramScene` calls of a trace, in order. -/
def setCalls : List Op → List String
  | [] => []
  | .setCurrentProgramScene n :: rest => n :: setCalls rest
  | _ :: rest => setCalls rest

/-! ## Specification vocabulary and sample worlds -/

/-- The release discipline of a trace: either the handler returned before
connecting, or the connection attempt failed and nothing else happened, or the
connection was opened first and released last, exactly once. -/
def Scoped (w : World) (ops : List Op) : Prop :=
  ops = [] ∨
  ((∃ e, w.connect w.server (connectOpts w.password) = .error e) ∧ ops = [.connect]) ∨
  (w.connect w.server (connectOpts w.password) = .ok () ∧
    ∃ mid, ops = .connect :: mid ++ [.disconnect] ∧ Op.connect ∉ mid ∧ Op.disconnect ∉ mid)

/-- A world in which every request succeeds, serving the scenes `raw` with
`cur` as the current program scene. -/
def servingWorld (raw : List Scene) (cur : String) : World where
  server := "localhost:4455"
  password := ""
  connect := fun _ _ => .ok ()
  getVersion := .ok ⟨"30.0.0", "5.3.0"⟩
  getSceneList := .ok raw
  getCurrentProgramScene := .ok cur
  setCurrentProgramScene := fun _ => .ok ()
  help := .ok ()

/-- Service order `[C, B, A]`, so that the presentation order is `[A, B, C]`. -/
def scenesCBA : List Scene := [⟨0, "C"⟩, ⟨1, "B"⟩, ⟨2, "A"⟩]

/-- Two scenes in service order, each indexed by its position. -/
def scenesAB : List Scene := [⟨0, "A"⟩, ⟨1, "B"⟩]

/-- A world whose endpoint refuses the connection. -/
def refusingWorld : World where
  server := "localhost:4455"
  password := "secret"
  connect := fun _ _ => .error "connection refused"
  getVersion := .ok ⟨"30.0.0", "5.3.0"⟩
  getSceneList := .ok scenesAB
  getCurrentProgramScene := .ok "A"
  setCurrentProgramScene := fun _ => .ok ()
  help := .ok ()

/-! # Theorems -/

/-! ## The swap loop reverses -/

theorem length_swapAt (s : List Scene) (i j : Nat) : (swapAt s i j).length = s.length := by
  unfold swapAt
  split <;> simp

theorem getElem?_swapAt (s : List Scene) (i j k : Nat) (hi : i < s.length) (hj : j < s.length) :
    (swapAt s i j)[k]? = if k = j then s[i]? else if k = i then s[j]? else s[k]? := by
  unfold swapAt
  rw [List.getElem?_eq_getElem hi, List.getElem?_eq_getElem hj]
  simp only [List.getElem?_set]
  by_cases hkj : k = j
  · subst hkj
    simp [hi, hj]
  · by_cases hki : k = i
    · subst hki
      simp [hkj, Ne.symm hkj, hi]
    · simp [hkj, hki, Ne.symm hkj, Ne.symm hki]

theorem getElem?_reverseLoop (d : Nat) : ∀ (s : List Scene) (i j k : Nat), j - i = d →
    j < s.length →
    (reverseLoop s i j)[k]? = if i ≤ k ∧ k ≤ j then s[i + j - k]? else s[k]? := by
  induction d using Nat.strong_induction_on with
  | _ d ih =>
    intro s i j k hd hj
    rw [reverseLoop]
    by_cases hij : i < j
    · rw [if_pos hij]
      have hlen := length_swapAt s i j
      rw [ih (j - 1 - (i + 1)) (by omega) (swapAt s i j) (i + 1) (j - 1) k rfl (by omega)]
      rw [getElem?_swapAt s i j _ (by omega) hj, getElem?_swapAt s i j _ (by omega) hj]
      by_cases hk1 : k = i
      · subst hk1
        have : ¬ (k + 1 ≤ k ∧ k ≤ j - 1) := by omega
        rw [if_neg this, if_neg (by omega), if_pos rfl, if_pos (by omega)]
        congr 1
        omega
      · by_cases hk2 : k = j
        · subst hk2
          have : ¬ (i + 1 ≤ k ∧ k ≤ k - 1) := by omega
          rw [if_neg this, if_pos rfl, if_pos (by omega)]
          congr 1
          omega
        · by_cases hin : i + 1 ≤ k ∧ k ≤ j - 1
          · rw [if_pos hin, if_neg (by omega), if_neg (by omega), if_pos (by omega)]
            congr 1
            omega
          · rw [if_neg hin, if_neg hk2, if_neg hk1, if_neg (by omega)]
    · rw [if_neg hij]
      by_cases hk : i ≤ k ∧ k ≤ j
      · rw [if_pos hk]
        congr 1
        omega
      · rw [if_neg hk]

/-- The swap loop computes the reversal of the slice. -/
theorem reverseScenes_eq_reverse (s : List Scene) : reverseScenes s = s.reverse := by
  unfold reverseScenes
  cases s with
  | nil => rw [reverseLoop]; simp
  | cons a t =>
    apply List.ext_getElem?
    intro k
    have hpos : 0 < (a :: t).length := by simp
    rw [getElem?_reverseLoop _ (a :: t) 0 ((a :: t).length - 1) k rfl (by omega)]
    by_cases hk : k < (a :: t).length
    · rw [if_pos (by omega), List.getElem?_reverse hk]
      congr 1
      omega
    · rw [if_neg (by omega), List.getElem?_eq_none (by omega),
        List.getElem?_eq_none (by rw [List.length_reverse]; omega)]

theorem length_reverseScenes (s : List Scene) : (reverseScenes s).length = s.length := by
  rw [reverseScenes_eq_reverse, List.length_reverse]

/-! ## The search loop -/

theorem nextSceneIndexFrom_absent (cur : String) (n : Nat) :
    ∀ (l : List Scene) (i : Nat), (∀ s ∈ l, s.SceneName ≠ cur) →
      nextSceneIndexFrom cur n l i = 0 := by
  intro l
  induction l with
  | nil => intro i _; rfl
  | cons a t ih =>
    intro i h
    have ha : a.SceneName ≠ cur := h a (List.mem_cons_self a t)
    rw [nextSceneIndexFrom, if_neg ha]
    exact ih (i + 1) (fun s hs => h s (List.mem_cons_of_mem a hs))

theorem nextSceneIndexFrom_first (cur : String) (n : Nat) :
    ∀ (l : List Scene) (i p : Nat) (s : Scene), l[p]? = some s → s.SceneName = cur →
      (∀ q s', q < p → l[q]? = some s' → s'.SceneName ≠ cur) →
      nextSceneIndexFrom cur n l i = (i + p + 1) % n := by
  intro l
  induction l with
  | nil => intro i p s hp; simp at hp
  | cons a t ih =>
    intro i p s hp hs hfirst
    cases p with
    | zero =>
      simp only [List.getElem?_cons_zero, Option.some.injEq] at hp
      subst hp
      rw [nextSceneIndexFrom, if_pos hs]
    | succ p =>
      have ha : a.SceneName ≠ cur := hfirst 0 a (Nat.succ_pos p) (by simp)
      rw [nextSceneIndexFrom, if_neg ha]
      rw [List.getElem?_cons_succ] at hp
      rw [ih (i + 1) p s hp hs (fun q s' hq hq' => hfirst (q + 1) s' (by omega) (by simpa using hq'))]
      congr 1
      omega

theorem nextSceneIndex_absent (scenes : List Scene) (cur : String)
    (h : ∀ s ∈ scenes, s.SceneName ≠ cur) : nextSceneIndex scenes cur = 0 :=
  nextSceneIndexFrom_absent cur scenes.length scenes 0 h

theorem nextSceneIndex_first (scenes : List Scene) (cur : String) (p : Nat) (s : Scene)
    (hp : scenes[p]? = some s) (hs : s.SceneName = cur)
    (hfirst : ∀ q s', q < p → scenes[q]? = some s' → s'.SceneName ≠ cur) :
    nextSceneIndex scenes cur = (p + 1) % scenes.length := by
  unfold nextSceneIndex
  rw [nextSceneIndexFrom_first cur scenes.length scenes 0 p s hp hs hfirst, Nat.zero_add]

/-! ## Unfolding the handlers -/

theorem sceneAt_natCast (scenes : List Scene) (k : Nat) (s : Scene) (h : scenes[k]? = some s) :
    sceneAt scenes (k : Int) = .ok s := by
  unfold sceneAt
  rw [if_neg (by omega), Int.toNat_ofNat, h]

theorem switchTo_ops (w : World) (before : List Op) (scenes : List Scene) (k : Nat) (s : Scene)
    (h : scenes[k]? = some s) :
    (switchTo w before scenes (k : Int)).ops = before ++ [.setCurrentProgramScene s.SceneName] := by
  unfold switchTo
  rw [sceneAt_natCast scenes k s h]
  cases h' : w.setCurrentProgramScene s.SceneName <;> simp [h']

theorem withConnection_ops (w : World) (body : Run)
    (hconn : w.connect w.server (connectOpts w.password) = .ok ()) :
    (withConnection w body).ops = .connect :: body.ops ++ [.disconnect] := by
  unfold withConnection
  rw [hconn]

theorem withConnection_eq (w : World) (body : Run)
    (hconn : w.connect w.server (connectOpts w.password) = .ok ()) :
    withConnection w body = ⟨.connect :: body.ops ++ [.disconnect], body.stdout, body.result⟩ := by
  unfold withConnection
  rw [hconn]

/-- The view the toggle branch walks. -/
theorem sceneSession_toggle (w : World) (raw : List Scene) (cur : String) (b : Bool)
    (args : List String) (hlist : w.getSceneList = .ok raw) (hne : raw ≠ [])
    (hcur : w.getCurrentProgramScene = .ok cur) :
    sceneSession w true b args =
      switchTo w [.getSceneList, .getCurrentProgramScene] (if b then raw else raw.reverse)
        (nextSceneIndex (if b then raw else raw.reverse) cur : Nat) := by
  have hlen : raw.length ≠ 0 := fun h => hne (List.length_eq_zero.mp h)
  unfold sceneSession
  rw [hlist]
  simp only [hlen, if_false, hcur, reverseScenes_eq_reverse]
  cases b <;> simp

/-- The by-index branch with exactly one argument. -/
theorem sceneSession_index (w : World) (raw : List Scene) (b : Bool) (tok : String)
    (hlist : w.getSceneList = .ok raw) (hne : raw ≠ []) :
    sceneSession w false b [tok] =
      match Atoi tok with
      | .error _ => ⟨[.getSceneList], [], .error "argument must be an integer"⟩
      | .ok idx =>
        if idx ≥ (raw.length : Int) then
          ⟨[.getSceneList], [],
            .error ("index out-of-bounds, there are only " ++ fmtD raw.length ++ " scenes")⟩
        else switchTo w [.getSceneList] raw.reverse idx := by
  have hlen : raw.length ≠ 0 := fun h => hne (List.length_eq_zero.mp h)
  unfold sceneSession
  rw [hlist]
  simp [hlen, reverseScenes_eq_reverse]

/-! ## Complete runs -/

theorem sceneCmdRunE_flags (w : World) (t b : Bool) (args : List String) :
    sceneCmdRunE w (.ok t) (.ok b) args = withConnection w (sceneSession w t b args) := rfl

/-- A toggle whose current scene is first found at position `i` of the view
issues one mutation, naming the scene at position `(i + 1) % length`. -/
theorem toggle_ops (w : World) (raw : List Scene) (cur : String) (b : Bool) (args : List String)
    (i : Nat) (s t : Scene)
    (hconn : w.connect w.server (connectOpts w.password) = .ok ())
    (hlist : w.getSceneList = .ok raw)
    (hcur : w.getCurrentProgramScene = .ok cur)
    (hi : (if b then raw else raw.reverse)[i]? = some s)
    (hs : s.SceneName = cur)
    (hfirst : ∀ q s', q < i → (if b then raw else raw.reverse)[q]? = some s' → s'.SceneName ≠ cur)
    (ht : (if b then raw else raw.reverse)[(i + 1) % (if b then raw else raw.reverse).length]?
      = some t) :
    (sceneCmdRunE w (.ok true) (.ok b) args).ops =
      [.connect, .getSceneList, .getCurrentProgramScene, .setCurrentProgramScene t.SceneName,
        .disconnect] := by
  have hne : raw ≠ [] := by
    rintro rfl
    cases b <;> simp at hi
  rw [sceneCmdRunE_flags, withConnection_ops w _ hconn,
    sceneSession_toggle w raw cur b args hlist hne hcur,
    nextSceneIndex_first _ cur i s hi hs hfirst, switchTo_ops w _ _ _ t ht]
  rfl

/-- A by-index switch with a valid index issues one mutation, naming the scene
at that index of the reversed collection. -/
theorem index_ops (w : World) (raw : List Scene) (tok : String) (k : Nat) (b : Bool) (s : Scene)
    (hconn : w.connect w.server (connectOpts w.password) = .ok ())
    (hlist : w.getSceneList = .ok raw)
    (htok : Atoi tok = .ok (k : Int))
    (hs : raw.reverse[k]? = some s) :
    (sceneCmdRunE w (.ok false) (.ok b) [tok]).ops =
      [.connect, .getSceneList, .setCurrentProgramScene s.SceneName, .disconnect] := by
  have hne : raw ≠ [] := by
    rintro rfl
    simp at hs
  have hk : k < raw.length := by
    have := (List.getElem?_eq_some.mp hs).1
    simpa using this
  rw [sceneCmdRunE_flags, withConnection_ops w _ hconn,
    sceneSession_index w raw b tok hlist hne, htok]
  simp only []
  rw [if_neg (by omega), switchTo_ops w _ _ _ s hs]
  rfl

/-- With pairwise distinct names, any position holding a name is the first. -/
theorem first_of_nodup (l : List Scene) (hnd : (l.map Scene.SceneName).Nodup) (cur : String)
    (i : Nat) (s : Scene) (hi : l[i]? = some s) (hs : s.SceneName = cur) :
    ∀ q s', q < i → l[q]? = some s' → s'.SceneName ≠ cur := by
  intro q s' hq hq' hcur
  obtain ⟨hil, hie⟩ := List.getElem?_eq_some.mp hi
  obtain ⟨hql, hqe⟩ := List.getElem?_eq_some.mp hq'
  have h1 : (l.map Scene.SceneName)[i]? = some cur := by simp [hi, hs]
  have h2 : (l.map Scene.SceneName)[q]? = some cur := by simp [hq', hcur]
  have hil' : i < (l.map Scene.SceneName).length := by simpa using hil
  have hql' : q < (l.map Scene.SceneName).length := by simpa using hql
  have e1 := (List.getElem?_eq_some.mp h1).2
  have e2 := (List.getElem?_eq_some.mp h2).2
  have := (@List.Nodup.getElem_inj_iff _ _ hnd i hil' q hql').mp (e1.trans e2.symm)
  omega

/-! ## Traces of the sessions -/

theorem switchTo_inner (w : World) (before : List Op) (scenes : List Scene) (idx : Int)
    (hb : ∀ op ∈ before, op ≠ Op.connect ∧ op ≠ Op.disconnect) :
    ∀ op ∈ (switchTo w before scenes idx).ops, op ≠ Op.connect ∧ op ≠ Op.disconnect := by
  unfold switchTo
  intro op hop
  split at hop
  · exact hb op hop
  · split at hop <;>
    · simp only [List.mem_append, List.mem_singleton] at hop
      rcases hop with h | h
      · exact hb op h
      · subst h; exact ⟨by simp, by simp⟩

theorem sceneSession_inner (w : World) (t b : Bool) (args : List String) :
    ∀ op ∈ (sceneSession w t b args).ops, op ≠ Op.connect ∧ op ≠ Op.disconnect := by
  unfold sceneSession
  dsimp only
  repeat' split
  all_goals first
    | exact switchTo_inner w _ _ _ (by simp)
    | simp

theorem listSession_inner (w : World) (f : String) :
    ∀ op ∈ (listSession w f).ops, op ≠ Op.connect ∧ op ≠ Op.disconnect := by
  unfold listSession
  dsimp only
  repeat' split
  all_goals simp

theorem versionSession_inner (w : World) (f : String) :
    ∀ op ∈ (versionSession w f).ops, op ≠ Op.connect ∧ op ≠ Op.disconnect := by
  unfold versionSession
  repeat' split
  all_goals simp

theorem withConnection_scoped (w : World) (body : Run)
    (h : ∀ op ∈ body.ops, op ≠ Op.connect ∧ op ≠ Op.disconnect) :
    Scoped w (withConnection w body).ops := by
  unfold Scoped withConnection
  cases hc : w.connect w.server (connectOpts w.password) with
  | error e => exact Or.inr (Or.inl ⟨⟨e, rfl⟩, rfl⟩)
  | ok u =>
    refine Or.inr (Or.inr ⟨rfl, body.ops, rfl, ?_, ?_⟩)
    · exact fun hm => (h _ hm).1 rfl
    · exact fun hm => (h _ hm).2 rfl

/-- Whatever `Atoi` accepts lies in the range of a 64-bit `int`. -/
theorem Atoi_range (tok : String) (v : Int) (h : Atoi tok = .ok v) :
    -(2 : Int) ^ 63 ≤ v ∧ v ≤ 2 ^ 63 - 1 := by
  unfold Atoi at h
  dsimp only at h
  by_cases h1 : (splitSign tok.toList).2 = []
  · rw [if_pos h1] at h
    cases h
  · rw [if_neg h1] at h
    cases hp : parseDigits (splitSign tok.toList).2 0 with
    | none =>
      rw [hp] at h
      cases h
    | some n =>
      rw [hp] at h
      dsimp only at h
      by_cases h2 : (if (splitSign tok.toList).1 = true then -(n : Int) else (n : Int))
          < -(2 : Int) ^ 63 ∨
          (2 : Int) ^ 63 - 1 < (if (splitSign tok.toList).1 = true then -(n : Int) else (n : Int))
      · rw [if_pos h2] at h
        cases h
      · rw [if_neg h2] at h
        injection h with h
        rw [← h]
        omega

/-- The JSON listing of a non-empty collection. -/
theorem listCmdRunE_json (w : World) (raw : List Scene)
    (hconn : w.connect w.server (connectOpts w.password) = .ok ())
    (hlist : w.getSceneList = .ok raw) (hne : raw ≠ []) :
    listCmdRunE w (.ok "json") =
      ⟨[.connect, .getSceneList, .disconnect],
        [.scenesJson (raw.reverse.map fun s => ⟨s.SceneIndex, s.SceneName⟩)], .ok⟩ := by
  have hlen : raw.length ≠ 0 := fun h => hne (List.length_eq_zero.mp h)
  unfold listCmdRunE
  simp only [true_or, not_true_eq_false, if_false]
  rw [withConnection_eq w _ hconn]
  unfold listSession
  rw [hlist]
  simp [hlen, reverseScenes_eq_reverse]

/-! ## Claims -/

/-- C1, counterexample: with scenes `[A, B]` and a current scene `Z` that occurs
in neither view, the forward toggle returns no error and switches to the first
scene of its view (`B`), and the backward toggle to the first of its own (`A`). -/
theorem toggle_unknown_current_scene_counterexample :
    (∀ s ∈ scenesAB, s.SceneName ≠ "Z") ∧
      sceneCmdRunE (servingWorld scenesAB "Z") (.ok true) (.ok false) [] =
        ⟨[.connect, .getSceneList, .getCurrentProgramScene, .setCurrentProgramScene "B",
          .disconnect], [], .ok⟩ ∧
      sceneCmdRunE (servingWorld scenesAB "Z") (.ok true) (.ok true) [] =
        ⟨[.connect, .getSceneList, .getCurrentProgramScene, .setCurrentProgramScene "A",
          .disconnect], [], .ok⟩ := by
  refine ⟨by decide, ?_, ?_⟩ <;>
    simp [sceneCmdRunE, withConnection, sceneSession, servingWorld, scenesAB,
      reverseScenes_eq_reverse, nextSceneIndex, nextSceneIndexFrom, switchTo, sceneAt]

/-- C1, amended: for a non-empty collection and a current-scene name that does
not occur in the chosen view, the toggle branch reports no unknown-scene
error; it issues exactly one `setCurrentProgramScene` call, naming the first
scene of the view. -/
theorem toggle_unknown_current_scene_switches_to_first (w : World) (raw : List Scene)
    (cur : String) (b : Bool) (args : List String)
    (hconn : w.connect w.server (connectOpts w.password) = .ok ())
    (hlist : w.getSceneList = .ok raw)
    (hne : raw ≠ [])
    (hcur : w.getCurrentProgramScene = .ok cur)
    (habsent : ∀ s ∈ (if b then raw else raw.reverse), s.SceneName ≠ cur) :
    ∃ first, (if b then raw else raw.reverse).head? = some first ∧
      (sceneCmdRunE w (.ok true) (.ok b) args).ops =
        [.connect, .getSceneList, .getCurrentProgramScene,
          .setCurrentProgramScene first.SceneName, .disconnect] ∧
      (sceneCmdRunE w (.ok true) (.ok b) args).result =
        (match w.setCurrentProgramScene first.SceneName with
          | .error e => .error e
          | .ok _ => .ok) := by
  have hvne : (if b then raw else raw.reverse) ≠ [] := by
    cases b <;> simpa using hne
  obtain ⟨first, rest, hv⟩ := List.exists_cons_of_ne_nil hvne
  have h0 : (if b then raw else raw.reverse)[0]? = some first := by rw [hv]; simp
  refine ⟨first, by rw [hv]; rfl, ?_, ?_⟩
  · rw [sceneCmdRunE_flags, withConnection_ops w _ hconn,
      sceneSession_toggle w raw cur b args hlist hne hcur,
      nextSceneIndex_absent _ cur habsent, switchTo_ops w _ _ 0 first h0]
    rfl
  · rw [sceneCmdRunE_flags, withConnection_eq w _ hconn,
      sceneSession_toggle w raw cur b args hlist hne hcur,
      nextSceneIndex_absent _ cur habsent]
    unfold switchTo
    rw [sceneAt_natCast _ 0 first h0]
    cases h' : w.setCurrentProgramScene first.SceneName <;> simp [h']

/-- Witness for C1 (amended): scenes `[A, B]`, current scene `Z`, backward. -/
theorem toggle_unknown_current_scene_switches_to_first_witness :
    ∃ first, (if true then scenesAB else scenesAB.reverse).head? = some first ∧
      (sceneCmdRunE (servingWorld scenesAB "Z") (.ok true) (.ok true) []).ops =
        [.connect, .getSceneList, .getCurrentProgramScene,
          .setCurrentProgramScene first.SceneName, .disconnect] ∧
      (sceneCmdRunE (servingWorld scenesAB "Z") (.ok true) (.ok true) []).result =
        (match (servingWorld scenesAB "Z").setCurrentProgramScene first.SceneName with
          | .error e => .error e
          | .ok _ => .ok) :=
  toggle_unknown_current_scene_switches_to_first (servingWorld scenesAB "Z") scenesAB "Z" true []
    rfl rfl (by decide) rfl (by decide)

/-- C2, at the failing input: the token `-1` parses as the integer `-1`, passes
the upper-bound test and makes the slice access crash; the handler does not
return the not-an-integer error. -/
theorem negative_index_crashes :
    Atoi "-1" = .ok (-1) ∧
      sceneCmdRunE (servingWorld scenesAB "A") (.ok false) (.ok false) ["-1"] =
        ⟨[.connect, .getSceneList, .disconnect], [], .panic "index out of range"⟩ := by
  refine ⟨rfl, ?_⟩
  rw [sceneCmdRunE_flags, withConnection_eq _ _ rfl,
    sceneSession_index _ scenesAB false "-1" rfl (by decide)]
  rfl

/-- C3: for a non-empty raw collection of length `n`, an index token parsing
to `idx` with `0 ≤ idx < n` and either value of the backwards flag, the
non-toggle scene command issues exactly one `setCurrentProgramScene` call, and
it names `raw[n-1-idx]`. -/
theorem scene_by_index_switches_to_reversed_position (w : World) (raw : List Scene)
    (tok : String) (idx : Int) (b : Bool)
    (hconn : w.connect w.server (connectOpts w.password) = .ok ())
    (hlist : w.getSceneList = .ok raw)
    (_hne : raw ≠ [])
    (htok : Atoi tok = .ok idx)
    (h0 : 0 ≤ idx) (hn : idx < (raw.length : Int)) :
    ∃ s, raw[raw.length - 1 - idx.toNat]? = some s ∧
      (sceneCmdRunE w (.ok false) (.ok b) [tok]).ops =
        [.connect, .getSceneList, .setCurrentProgramScene s.SceneName, .disconnect] ∧
      setCalls (sceneCmdRunE w (.ok false) (.ok b) [tok]).ops = [s.SceneName] := by
  have hk : idx.toNat < raw.length := by omega
  have hlt : raw.length - 1 - idx.toNat < raw.length := by omega
  refine ⟨raw[raw.length - 1 - idx.toNat], List.getElem?_eq_getElem hlt, ?_⟩
  have hrev : raw.reverse[idx.toNat]? = some raw[raw.length - 1 - idx.toNat] := by
    rw [List.getElem?_reverse hk, List.getElem?_eq_getElem hlt]
  have hcast : Atoi tok = .ok ((idx.toNat : Nat) : Int) := by
    rw [Int.toNat_of_nonneg h0]; exact htok
  have hops := index_ops w raw tok idx.toNat b _ hconn hlist hcast hrev
  exact ⟨hops, by rw [hops]; rfl⟩

/-- Witness for C3: index `0` over service order `[C, B, A]` switches to `A`. -/
theorem scene_by_index_switches_to_reversed_position_witness :
    ∃ s, scenesCBA[scenesCBA.length - 1 - (0 : Int).toNat]? = some s ∧
      (sceneCmdRunE (servingWorld scenesCBA "B") (.ok false) (.ok true) ["0"]).ops =
        [.connect, .getSceneList, .setCurrentProgramScene s.SceneName, .disconnect] ∧
      setCalls (sceneCmdRunE (servingWorld scenesCBA "B") (.ok false) (.ok true) ["0"]).ops
        = [s.SceneName] :=
  scene_by_index_switches_to_reversed_position (servingWorld scenesCBA "B") scenesCBA "0" 0 true
    rfl rfl (by decide) rfl (by decide) (by decide)

/-- C4: when the current scene name is first found at position `i` of the view
(the reversed raw collection when `backwards` is false, the raw collection
when it is true), the toggle branch sets the program scene to
`view[(i+1) mod length(view)]`. -/
theorem toggle_advances_with_wraparound (w : World) (raw : List Scene) (cur : String)
    (b : Bool) (args : List String) (i : Nat) (s : Scene)
    (hconn : w.connect w.server (connectOpts w.password) = .ok ())
    (hlist : w.getSceneList = .ok raw)
    (hcur : w.getCurrentProgramScene = .ok cur)
    (hi : (if b then raw else raw.reverse)[i]? = some s)
    (hs : s.SceneName = cur)
    (hfirst : ∀ q s', q < i → (if b then raw else raw.reverse)[q]? = some s' →
      s'.SceneName ≠ cur) :
    ∃ t, (if b then raw else raw.reverse)[(i + 1) % (if b then raw else raw.reverse).length]?
        = some t ∧
      (sceneCmdRunE w (.ok true) (.ok b) args).ops =
        [.connect, .getSceneList, .getCurrentProgramScene,
          .setCurrentProgramScene t.SceneName, .disconnect] := by
  have hil := (List.getElem?_eq_some.mp hi).1
  have hlt : (i + 1) % (if b then raw else raw.reverse).length
      < (if b then raw else raw.reverse).length := Nat.mod_lt _ (by omega)
  refine ⟨(if b then raw else raw.reverse)[(i + 1) % (if b then raw else raw.reverse).length],
    List.getElem?_eq_getElem hlt, ?_⟩
  exact toggle_ops w raw cur b args i s _ hconn hlist hcur hi hs hfirst (List.getElem?_eq_getElem hlt)

/-- Witness for C4: the two wraparound examples.  Presentation order
`[A, B, C]` with current scene `C` toggles forward to `A`; raw order
`[C, B, A]` with current scene `A` toggles backward to `C`. -/
theorem toggle_advances_with_wraparound_witness :
    (sceneCmdRunE (servingWorld scenesCBA "C") (.ok true) (.ok false) []).ops =
        [.connect, .getSceneList, .getCurrentProgramScene, .setCurrentProgramScene "A",
          .disconnect] ∧
      (sceneCmdRunE (servingWorld scenesCBA "A") (.ok true) (.ok true) []).ops =
        [.connect, .getSceneList, .getCurrentProgramScene, .setCurrentProgramScene "C",
          .disconnect] := by
  constructor
  · obtain ⟨t, ht, hops⟩ := toggle_advances_with_wraparound (servingWorld scenesCBA "C")
      scenesCBA "C" false [] 2 ⟨0, "C"⟩ rfl rfl rfl (by decide) rfl (by
        intro q s' hq h
        interval_cases q <;> simp [scenesCBA] at h <;> subst h <;> decide)
    have h : t = ⟨2, "A"⟩ := by simpa [scenesCBA] using ht.symm
    rw [hops, h]
  · obtain ⟨t, ht, hops⟩ := toggle_advances_with_wraparound (servingWorld scenesCBA "A")
      scenesCBA "A" true [] 2 ⟨2, "A"⟩ rfl rfl rfl (by decide) rfl (by
        intro q s' hq h
        interval_cases q <;> simp [scenesCBA] at h <;> subst h <;> decide)
    have h : t = ⟨0, "C"⟩ := by simpa [scenesCBA] using ht.symm
    rw [hops, h]

/-- C5: backward toggle undoes forward toggle.  Over a raw collection with
pairwise distinct scene names and a current scene `c` in it, if the forward
toggle switches to `t`, then the backward toggle over the same collection with
current scene `t` switches to `c`. -/
theorem backward_toggle_undoes_forward (w₁ w₂ : World) (raw : List Scene) (c t : String)
    (args₁ args₂ : List String)
    (hconn₁ : w₁.connect w₁.server (connectOpts w₁.password) = .ok ())
    (hconn₂ : w₂.connect w₂.server (connectOpts w₂.password) = .ok ())
    (hlist₁ : w₁.getSceneList = .ok raw)
    (hlist₂ : w₂.getSceneList = .ok raw)
    (hcur₁ : w₁.getCurrentProgramScene = .ok c)
    (hcur₂ : w₂.getCurrentProgramScene = .ok t)
    (hnd : (raw.map Scene.SceneName).Nodup)
    (hc : c ∈ raw.map Scene.SceneName)
    (hfwd : setCalls (sceneCmdRunE w₁ (.ok true) (.ok false) args₁).ops = [t]) :
    setCalls (sceneCmdRunE w₂ (.ok true) (.ok true) args₂).ops = [c] := by
  obtain ⟨sc, hsc, hscn⟩ := List.mem_map.mp hc
  obtain ⟨p, hp, hpe⟩ := List.getElem_of_mem hsc
  have hn : 0 < raw.length := by omega
  have hndr : ((raw.reverse).map Scene.SceneName).Nodup := by
    rw [List.map_reverse]; exact List.nodup_reverse.mpr hnd
  -- the forward run
  have hi : raw.reverse[raw.length - 1 - p]? = some sc := by
    rw [List.getElem?_reverse (by omega), List.getElem?_eq_getElem (by omega)]
    simp only [Option.some.injEq]
    rw [← hpe]
    congr 1
    omega
  have hjlt : (raw.length - 1 - p + 1) % raw.length < raw.length := Nat.mod_lt _ hn
  have hqlt : raw.length - 1 - (raw.length - 1 - p + 1) % raw.length < raw.length := by omega
  have ht : raw.reverse[(raw.length - 1 - p + 1) % raw.reverse.length]? =
      some raw[raw.length - 1 - (raw.length - 1 - p + 1) % raw.length] := by
    rw [List.length_reverse, List.getElem?_reverse hjlt, List.getElem?_eq_getElem hqlt]
  have hops₁ := toggle_ops w₁ raw c false args₁ (raw.length - 1 - p) sc _ hconn₁ hlist₁ hcur₁
    hi hscn (first_of_nodup raw.reverse hndr c _ sc hi hscn) ht
  rw [hops₁] at hfwd
  have htn : (raw[raw.length - 1 - (raw.length - 1 - p + 1) % raw.length]).SceneName = t := by
    simpa [setCalls] using hfwd
  -- the backward run
  have hq : raw[raw.length - 1 - (raw.length - 1 - p + 1) % raw.length]? =
      some raw[raw.length - 1 - (raw.length - 1 - p + 1) % raw.length] :=
    List.getElem?_eq_getElem hqlt
  have hstep : (raw.length - 1 - (raw.length - 1 - p + 1) % raw.length + 1) % raw.length = p := by
    rcases Nat.eq_zero_or_pos p with h0 | hpos
    · subst h0
      have e1 : raw.length - 1 - 0 + 1 = raw.length := by omega
      rw [e1, Nat.mod_self]
      have e2 : raw.length - 1 - 0 + 1 = raw.length := by omega
      rw [e2, Nat.mod_self]
    · have e1 : (raw.length - 1 - p + 1) % raw.length = raw.length - p := by
        rw [Nat.mod_eq_of_lt (by omega)]; omega
      rw [e1]
      have e2 : raw.length - 1 - (raw.length - p) + 1 = p := by omega
      rw [e2, Nat.mod_eq_of_lt hp]
  have hback : raw[(raw.length - 1 - (raw.length - 1 - p + 1) % raw.length + 1) % raw.length]? =
      some sc := by
    rw [hstep, List.getElem?_eq_getElem hp, hpe]
  have hops₂ := toggle_ops w₂ raw t true args₂
    (raw.length - 1 - (raw.length - 1 - p + 1) % raw.length) _ sc hconn₂ hlist₂ hcur₂
    hq htn (first_of_nodup raw hnd t _ _ hq htn) hback
  rw [hops₂, hscn]
  rfl

/-- Witness for C5: over service order `[C, B, A]` the forward toggle from `B`
switches to `C`, and the backward toggle from `C` switches back to `B`. -/
theorem backward_toggle_undoes_forward_witness :
    setCalls (sceneCmdRunE (servingWorld scenesCBA "B") (.ok true) (.ok false) []).ops = ["C"] ∧
      setCalls (sceneCmdRunE (servingWorld scenesCBA "C") (.ok true) (.ok true) []).ops = ["B"] :=
  have hfwd :
      setCalls (sceneCmdRunE (servingWorld scenesCBA "B") (.ok true) (.ok false) []).ops
        = ["C"] := by
    simp [sceneCmdRunE, withConnection, sceneSession, servingWorld, scenesCBA,
      reverseScenes_eq_reverse, nextSceneIndex, nextSceneIndexFrom, switchTo, sceneAt, setCalls]
  ⟨hfwd, backward_toggle_undoes_forward (servingWorld scenesCBA "B")
    (servingWorld scenesCBA "C") scenesCBA "B" "C" [] [] rfl rfl rfl rfl rfl rfl
    (by decide) (by decide) hfwd⟩

/-- C6: when the fetched collection is empty, the scene command (whatever the
flags and arguments) and the list command return their empty-collection error
right after the fetch: the only remote operations are connect, getSceneList
and disconnect. -/
theorem empty_collection_short_circuits (w : World)
    (hconn : w.connect w.server (connectOpts w.password) = .ok ())
    (hlist : w.getSceneList = .ok []) :
    (∀ (t b : Bool) (args : List String),
      sceneCmdRunE w (.ok t) (.ok b) args =
        ⟨[.connect, .getSceneList, .disconnect], [], .error "no scenes to switch between"⟩) ∧
    (∀ f : String, f = "json" ∨ f = "text" →
      listCmdRunE w (.ok f) =
        ⟨[.connect, .getSceneList, .disconnect], [], .error "no scenes to list"⟩) := by
  constructor
  · intro t b args
    rw [sceneCmdRunE_flags, withConnection_eq w _ hconn]
    unfold sceneSession
    rw [hlist]
    rfl
  · intro f hf
    unfold listCmdRunE
    simp only [hf, not_true_eq_false, if_false]
    rw [withConnection_eq w _ hconn]
    unfold listSession
    rw [hlist]
    rfl

/-- Witness for C6: a reachable service holding no scene. -/
theorem empty_collection_short_circuits_witness :
    (∀ (t b : Bool) (args : List String),
      sceneCmdRunE (servingWorld [] "") (.ok t) (.ok b) args =
        ⟨[.connect, .getSceneList, .disconnect], [], .error "no scenes to switch between"⟩) ∧
    (∀ f : String, f = "json" ∨ f = "text" →
      listCmdRunE (servingWorld [] "") (.ok f) =
        ⟨[.connect, .getSceneList, .disconnect], [], .error "no scenes to list"⟩) :=
  empty_collection_short_circuits (servingWorld [] "") rfl rfl

/-- C7, counterexample: the token `9223372036854775808` denotes the integer
`2^63`, which is at least the size 2 of the collection, yet `strconv.Atoi`
rejects it as out of range and the command answers with the not-an-integer
error, not with the out-of-bounds message. -/
theorem index_beyond_int_range_counterexample :
    parseDigits "9223372036854775808".toList 0 = some (2 ^ 63) ∧
      (scenesAB.length : Int) ≤ 2 ^ 63 ∧
      Atoi "9223372036854775808" = .error "value out of range" ∧
      sceneCmdRunE (servingWorld scenesAB "A") (.ok false) (.ok false)
          ["9223372036854775808"] =
        ⟨[.connect, .getSceneList, .disconnect], [], .error "argument must be an integer"⟩ := by
  refine ⟨rfl, by decide, rfl, ?_⟩
  rw [sceneCmdRunE_flags, withConnection_eq _ _ rfl,
    sceneSession_index _ scenesAB false "9223372036854775808" rfl (by decide)]
  rfl

/-- C7, amended: for a non-empty collection of length `n` and an index token
that `strconv.Atoi` parses to an integer `idx ≥ n` (so `idx` is at most
`2^63 - 1`, the largest `int`), the by-index branch fails with the message
`index out-of-bounds, there are only n scenes` and issues no
`setCurrentProgramScene` call. -/
theorem index_out_of_bounds_reports_size (w : World) (raw : List Scene) (tok : String)
    (idx : Int) (b : Bool)
    (hconn : w.connect w.server (connectOpts w.password) = .ok ())
    (hlist : w.getSceneList = .ok raw)
    (hne : raw ≠ [])
    (htok : Atoi tok = .ok idx)
    (hge : (raw.length : Int) ≤ idx) :
    idx ≤ 2 ^ 63 - 1 ∧
    sceneCmdRunE w (.ok false) (.ok b) [tok] =
      ⟨[.connect, .getSceneList, .disconnect], [],
        .error ("index out-of-bounds, there are only " ++ fmtD raw.length ++ " scenes")⟩ ∧
    setCalls (sceneCmdRunE w (.ok false) (.ok b) [tok]).ops = [] := by
  have hrun : sceneCmdRunE w (.ok false) (.ok b) [tok] =
      ⟨[.connect, .getSceneList, .disconnect], [],
        .error ("index out-of-bounds, there are only " ++ fmtD raw.length ++ " scenes")⟩ := by
    rw [sceneCmdRunE_flags, withConnection_eq w _ hconn,
      sceneSession_index w raw b tok hlist hne, htok]
    simp only []
    rw [if_pos (by omega)]
    rfl
  exact ⟨(Atoi_range tok idx htok).2, hrun, by rw [hrun]; rfl⟩

/-- Witness for C7 (amended): a collection of size 2 and index 5; the message
states `only 2 scenes`. -/
theorem index_out_of_bounds_reports_size_witness :
    (5 : Int) ≤ 2 ^ 63 - 1 ∧
    sceneCmdRunE (servingWorld scenesAB "A") (.ok false) (.ok false) ["5"] =
      ⟨[.connect, .getSceneList, .disconnect], [],
        .error "index out-of-bounds, there are only 2 scenes"⟩ ∧
    setCalls (sceneCmdRunE (servingWorld scenesAB "A") (.ok false) (.ok false) ["5"]).ops = [] :=
  index_out_of_bounds_reports_size (servingWorld scenesAB "A") scenesAB "5" 5 false
    rfl rfl (by decide) rfl (by decide)

/-- C9: every run of the scene, list and version handlers keeps the release
discipline: a connection that was opened is released exactly once, as the last
remote operation, on every exit path (crash included); a failed connection
attempt is followed by no remote operation at all. -/
theorem connection_released_exactly_once (w : World) :
    (∀ (t b : Except String Bool) (args : List String), Scoped w (sceneCmdRunE w t b args).ops) ∧
    (∀ f : Except String String, Scoped w (listCmdRunE w f).ops) ∧
    (∀ f : Except String String, Scoped w (versionCmdRunE w f).ops) := by
  refine ⟨?_, ?_, ?_⟩
  · intro t b args
    cases t with
    | error e => exact Or.inl rfl
    | ok t =>
      cases b with
      | error e => exact Or.inl rfl
      | ok b => exact withConnection_scoped w _ (sceneSession_inner w t b args)
  · intro f
    cases f with
    | error e => exact Or.inl rfl
    | ok f =>
      unfold listCmdRunE
      simp only []
      split
      · exact Or.inl rfl
      · exact withConnection_scoped w _ (listSession_inner w f)
  · intro f
    cases f with
    | error e => exact Or.inl rfl
    | ok f =>
      unfold versionCmdRunE
      simp only []
      split
      · exact Or.inl rfl
      · exact withConnection_scoped w _ (versionSession_inner w f)

/-- C8, counterexample: the token `abc` is rejected only after the connection
was opened and the scene list fetched; and when the endpoint refuses the
connection the command fails with the connection error instead. -/
theorem non_integer_token_validated_late_counterexample :
    (∀ v, Atoi "abc" ≠ .ok v) ∧
      sceneCmdRunE (servingWorld scenesAB "A") (.ok false) (.ok false) ["abc"] =
        ⟨[.connect, .getSceneList, .disconnect], [], .error "argument must be an integer"⟩ ∧
      sceneCmdRunE refusingWorld (.ok false) (.ok false) ["abc"] =
        ⟨[.connect], [], .error "connection refused"⟩ := by
  refine ⟨?_, ?_, rfl⟩
  · intro v h
    have : Atoi "abc" = .error "invalid syntax" := rfl
    rw [this] at h
    cases h
  · rw [sceneCmdRunE_flags, withConnection_eq _ _ rfl,
      sceneSession_index _ scenesAB false "abc" rfl (by decide)]
    rfl

/-- C8, amended: for an index token that `strconv.Atoi` rejects, the non-toggle
scene command never issues a `setCurrentProgramScene` call; the token is
validated after the fetch: once the connection is open and a non-empty
collection fetched, the command fails with the not-an-integer error, its
remote operations being exactly connect, getSceneList, disconnect. -/
theorem non_integer_token_rejected_after_fetch (w : World) (raw : List Scene) (tok : String)
    (b : Bool) (hbad : ∀ v, Atoi tok ≠ .ok v) :
    setCalls (sceneCmdRunE w (.ok false) (.ok b) [tok]).ops = [] ∧
    (w.connect w.server (connectOpts w.password) = .ok () → w.getSceneList = .ok raw →
      raw ≠ [] →
      sceneCmdRunE w (.ok false) (.ok b) [tok] =
        ⟨[.connect, .getSceneList, .disconnect], [], .error "argument must be an integer"⟩) := by
  have hsess : ∀ raw', w.getSceneList = .ok raw' → raw' ≠ [] →
      sceneSession w false b [tok] =
        ⟨[.getSceneList], [], .error "argument must be an integer"⟩ := by
    intro raw' hl hn
    rw [sceneSession_index w raw' b tok hl hn]
    cases hA : Atoi tok with
    | error e => rfl
    | ok v => exact absurd hA (hbad v)
  constructor
  · rw [sceneCmdRunE_flags]
    unfold withConnection
    cases hc : w.connect w.server (connectOpts w.password) with
    | error e => rfl
    | ok u =>
      simp only []
      cases hl : w.getSceneList with
      | error e =>
        have : sceneSession w false b [tok] = ⟨[.getSceneList], [], .error e⟩ := by
          unfold sceneSession; rw [hl]
        rw [this]; rfl
      | ok raw' =>
        by_cases hn : raw' = []
        · subst hn
          have : sceneSession w false b [tok] =
              ⟨[.getSceneList], [], .error "no scenes to switch between"⟩ := by
            unfold sceneSession; rw [hl]; rfl
          rw [this]; rfl
        · rw [hsess raw' hl hn]; rfl
  · intro hconn hlist hne
    rw [sceneCmdRunE_flags, withConnection_eq w _ hconn, hsess raw hlist hne]
    rfl

/-- Witness for C8 (amended): the token `abc` against a reachable service
holding two scenes. -/
theorem non_integer_token_rejected_after_fetch_witness :
    setCalls (sceneCmdRunE (servingWorld scenesAB "A") (.ok false) (.ok true) ["abc"]).ops = [] ∧
      sceneCmdRunE (servingWorld scenesAB "A") (.ok false) (.ok true) ["abc"] =
        ⟨[.connect, .getSceneList, .disconnect], [], .error "argument must be an integer"⟩ :=
  have h := non_integer_token_rejected_after_fetch (servingWorld scenesAB "A") scenesAB "abc" true
    (fun v hv => by
      have e : Atoi "abc" = .error "invalid syntax" := rfl
      rw [e] at hv
      cases hv)
  ⟨h.1, h.2 rfl rfl (by decide)⟩

/-- C10, counterexample: over the scenes `[A, B]`, each indexed by its raw
position, the JSON listing shows `B` first with index `1` and `A` second with
index `0`; the scene command given `1` switches to `A`, not to `B`. -/
theorem listed_index_is_not_position_counterexample :
    (∀ (k : Nat) (s : Scene), scenesAB[k]? = some s → s.SceneIndex = (k : Int)) ∧
      (listCmdRunE (servingWorld scenesAB "A") (.ok "json")).stdout =
        [.scenesJson [⟨1, "B"⟩, ⟨0, "A"⟩]] ∧
      (sceneCmdRunE (servingWorld scenesAB "A") (.ok false) (.ok false) ["1"]).ops =
        [.connect, .getSceneList, .setCurrentProgramScene "A", .disconnect] := by
  refine ⟨?_, ?_, ?_⟩
  · intro k s h
    match k, h with
    | 0, h => simp [scenesAB] at h; subst h; rfl
    | 1, h => simp [scenesAB] at h; subst h; rfl
    | k + 2, h => simp [scenesAB] at h
  · rw [listCmdRunE_json _ scenesAB rfl rfl (by decide)]
    rfl
  · rw [sceneCmdRunE_flags, withConnection_eq _ _ rfl,
      sceneSession_index _ scenesAB false "1" rfl (by decide)]
    rfl

/-- C10, amended: when each scene's serviceIndex is its position in the raw
collection of length `n`, the entry at position `p` of the JSON listing carries
the index `n-1-p` (the service's own index), while the by-index scene command
switches to that entry's scene when given `p`. -/
theorem listed_index_is_service_index (w : World) (raw : List Scene)
    (hconn : w.connect w.server (connectOpts w.password) = .ok ())
    (hlist : w.getSceneList = .ok raw)
    (hne : raw ≠ [])
    (hpos : ∀ (k : Nat) (s : Scene), raw[k]? = some s → s.SceneIndex = (k : Int)) :
    ∃ entries, listCmdRunE w (.ok "json") =
        ⟨[.connect, .getSceneList, .disconnect], [.scenesJson entries], .ok⟩ ∧
      entries.length = raw.length ∧
      ∀ (p : Nat) (e : ListedScene), entries[p]? = some e →
        e.SceneIndex = ((raw.length - 1 - p : Nat) : Int) ∧
        ∀ tok b, Atoi tok = .ok (p : Int) →
          (sceneCmdRunE w (.ok false) (.ok b) [tok]).ops =
            [.connect, .getSceneList, .setCurrentProgramScene e.SceneName, .disconnect] := by
  refine ⟨raw.reverse.map fun s => ⟨s.SceneIndex, s.SceneName⟩,
    listCmdRunE_json w raw hconn hlist hne, by simp, ?_⟩
  intro p e he
  rw [List.getElem?_map] at he
  cases hs : raw.reverse[p]? with
  | none => rw [hs] at he; cases he
  | some s =>
    rw [hs] at he
    simp only [Option.map_some', Option.some.injEq] at he
    subst he
    have hp : p < raw.length := by
      have := (List.getElem?_eq_some.mp hs).1
      simpa using this
    have hraw : raw[raw.length - 1 - p]? = some s := by
      rw [← hs, List.getElem?_reverse hp]
    exact ⟨hpos _ s hraw, fun tok b htok => index_ops w raw tok p b s hconn hlist htok hs⟩

/-- Witness for C10 (amended): the scenes `[A, B]`. -/
theorem listed_index_is_service_index_witness :
    ∃ entries, listCmdRunE (servingWorld scenesAB "A") (.ok "json") =
        ⟨[.connect, .getSceneList, .disconnect], [.scenesJson entries], .ok⟩ ∧
      entries.length = scenesAB.length ∧
      ∀ (p : Nat) (e : ListedScene), entries[p]? = some e →
        e.SceneIndex = ((scenesAB.length - 1 - p : Nat) : Int) ∧
        ∀ tok b, Atoi tok = .ok (p : Int) →
          (sceneCmdRunE (servingWorld scenesAB "A") (.ok false) (.ok b) [tok]).ops =
            [.connect, .getSceneList, .setCurrentProgramScene e.SceneName, .disconnect] :=
  listed_index_is_service_index (servingWorld scenesAB "A") scenesAB rfl rfl (by decide)
    (fun k s h => by
      match k, h with
      | 0, h => simp [scenesAB] at h; subst h; rfl
      | 1, h => simp [scenesAB] at h; subst h; rfl
      | k + 2, h => simp [scenesAB] at h)

end ObsSwitch
